import Mathlib

/-!
Shallow embedding of the CANopen node core (src/node.rs, src/pdo.rs).

Machine integers are modelled as `Nat` with explicit `% 2^w` where the Rust
code can wrap silently (`u64` shifts-left discard high bits), and fallible
steps are modelled with `Option`: a `none` result stands for a Rust panic
(checked arithmetic overflow, shift amount at least the bit width, slice
index out of bounds, `unwrap` on `None`, or a `todo!()` body).

The object dictionary, its `Variable` type and the `CanAbortCode` error enum
live in repository files outside the studied core (object_directory.rs,
error.rs); they are modelled from the spec where noted.  The SDO session
scratch fields of `Node` and the CAN transport handle are opaque to every
function studied here and are omitted from the state; the list of frames
handed to the transport is returned explicitly instead.
-/

/- ## Bit-packing codec (src/pdo.rs, vec_to_u64 / pack_data / unpack_data) -/

/-- `vec_to_u64`: big-endian fold of a byte vector into a `u64`
(`res = (res << 8) | x`, the shift silently truncating mod `2^64`). -/
def vec_to_u64 (v : List Nat) : Nat :=
  v.foldl (fun res x => (((res <<< 8) % 2 ^ 64) ||| x)) 0

/-- The accumulation loop of `pack_data`: state is `(merged, total_bits)`.
`total_bits` is a `u8` (`total_bits += bits` panics above 255) and the
shifts `merged << bits` and `1 << bits` panic for `bits ≥ 64`. -/
def pack_loop : List (Nat × Nat) → Nat → Nat → Option (Nat × Nat)
  | [], merged, total_bits => some (merged, total_bits)
  | (data, bits) :: rest, merged, total_bits =>
    if 256 ≤ total_bits + bits then none
    else if 64 ≤ bits then none
    else
      pack_loop rest (((merged <<< bits) % 2 ^ 64) ||| (data &&& (2 ^ bits - 1)))
        (total_bits + bits)

/-- The serialization loop of `pack_data`: `total_bytes` iterations of
`res[total_bytes - 1 - i] = merged & 0xFF; merged >>= 8`, i.e. the
big-endian bytes of `merged`. -/
def be_serialize : Nat → Nat → List Nat
  | 0, _ => []
  | n + 1, merged => be_serialize n (merged >>> 8) ++ [merged &&& 0xFF]

/-- `pack_data` (src/pdo.rs): merge `(value, bit-width)` pairs into a
big-endian byte buffer of `ceil(total_bits / 8)` bytes. -/
def pack_data (vec : List (Nat × Nat)) : Option (List Nat) :=
  (pack_loop vec 0 0).map fun mt =>
    let total_bytes := mt.2 / 8 + if mt.2 % 8 > 0 then 1 else 0
    be_serialize total_bytes mt.1

/-- The loop of `unpack_data`, which peels fields off the merged integer
from the last declared width to the first (`t = data & ((1 << bits[idx]) - 1);
data >>= bits[idx]`).  Returns the decoded pairs and the remaining data;
`none` models the shift-overflow panic for a width of 64 or more. -/
def unpack_loop : List Nat → Nat → Option (List (Nat × Nat) × Nat)
  | [], data => some ([], data)
  | b :: rest, data =>
    match unpack_loop rest data with
    | none => none
    | some (tail, d) =>
      if 64 ≤ b then none
      else some ((d &&& (2 ^ b - 1), b) :: tail, d >>> b)

/-- `unpack_data` (src/pdo.rs): split a byte buffer into one
`(value, bit-width)` pair per declared width, inverse of `pack_data`. -/
def unpack_data (vec : List Nat) (bits : List Nat) : Option (List (Nat × Nat)) :=
  (unpack_loop bits (vec_to_u64 vec)).map Prod.fst

/- ## Node events, states, trigger policy -/

/-- `NodeEvent` (src/node.rs). -/
inductive NodeEvent
  | RegularTimerEvent
  | NodeStart
  | Unused
deriving DecidableEq

/-- `NodeState` (src/node.rs). -/
inductive NodeState
  | Init
  | PreOperational
  | Operational
  | Stopped
deriving DecidableEq

/-- `should_trigger_pdo` (src/pdo.rs): the stateless trigger-policy decision.
All numeric arguments are `u32` in the source; the early returns are nested
conditionals here.  The short-circuit `||` of the source never evaluates
`count % transmission_type` when `transmission_type == 0`; `Nat` modulo is
total so the same expression is used directly. -/
def should_trigger_pdo (is_sync : Bool) (event : NodeEvent)
    (transmission_type event_times count : Nat) : Bool :=
  if is_sync then
    if transmission_type = 0 ∨ 240 < transmission_type ∨ count % transmission_type ≠ 0 then
      false
    else
      true
  else
    match event with
    | NodeEvent.NodeStart => true
    | _ =>
      if transmission_type ≠ 0xFE ∧ transmission_type ≠ 0xFF then
        false
      else if event_times = 0 ∨ count % event_times ≠ 0 then
        false
      else
        true

/- ## Object dictionary collaborator (external to the core) -/

/-- Modelled from the spec: the byte-serializable current value of a
dictionary entry ("an addressed, typed dictionary entry with a current value
and a byte-serializable representation"); object_directory.rs is outside the
studied core.  Only the raw byte list is needed here. -/
structure VarValue where
  data : List Nat
deriving DecidableEq

/-- Modelled from the spec: the numeric conversion `default_value.to()` used
by the PDO update path, reading the bytes as an unsigned integer truncated
to the target width `w` (8, 16 or 32 bits in the call sites). -/
def VarValue.to (v : VarValue) (w : Nat) : Nat :=
  vec_to_u64 v.data % 2 ^ w

/-- Modelled from the spec: a dictionary `Variable` as consumed by the PDO
subsystem: its dictionary index, sub-index and current (default) value. -/
structure Variable where
  index : Nat
  sub_index : Nat
  default_value : VarValue
deriving DecidableEq

/-- Modelled from the spec: the object dictionary interface consumed by this
core is only `get_variable(index, sub_index) -> Result<Variable, _>`;
a dictionary is therefore a partial lookup function. -/
def ObjectDirectory : Type :=
  Nat × Nat → Option Variable

/-- Modelled from the spec: `get_variable` of the dictionary collaborator. -/
def ObjectDirectory.get_variable (od : ObjectDirectory) (index sub_index : Nat) :
    Option Variable :=
  od (index, sub_index)

/-- `CanAbortCode` (error.rs, outside the studied core): only
`GeneralError` is produced by the PDO path. -/
inductive CanAbortCode
  | GeneralError
deriving DecidableEq

/- ## PDO mapping table (src/pdo.rs) -/

/-- `PdoType` (src/pdo.rs). -/
inductive PdoType
  | TPDO
  | RPDO
deriving DecidableEq

/-- `PdoObject` (src/pdo.rs): one configured PDO slot. -/
structure PdoObject where
  pdo_type : PdoType
  is_pdo_valid : Bool
  _not_used_rtr_allowed : Bool
  _not_used_is_29bit_can_id : Bool
  largest_sub_index : Nat
  cob_id : Nat
  transmission_type : Nat
  inhibit_time : Nat
  event_timer : Nat
  num_of_map_objs : Nat
  mappings : List (Nat × Nat × Nat)
deriving DecidableEq

/-- `PdoObject::update_comm_params` (src/pdo.rs).  Sub-index 1 decodes the
32-bit COB-ID configuration word; afterwards the `match` on the sub-index
sets the remaining communication parameters.  Total: no panic source. -/
def PdoObject.update_comm_params (p : PdoObject) (var : Variable) : PdoObject :=
  let p1 :=
    if var.sub_index = 1 then
      let t := var.default_value.to 32
      { p with
        is_pdo_valid := ((t >>> 31) &&& 0x1) == 0
        _not_used_rtr_allowed := ((t >>> 30) &&& 0x1) == 1
        _not_used_is_29bit_can_id := ((t >>> 29) &&& 0x1) == 1
        cob_id := t &&& 0xFFFF }
    else p
  if var.sub_index = 0 then { p1 with largest_sub_index := var.default_value.to 8 }
  else if var.sub_index = 2 then { p1 with transmission_type := var.default_value.to 8 }
  else if var.sub_index = 3 then { p1 with inhibit_time := var.default_value.to 16 }
  else if var.sub_index = 5 then { p1 with event_timer := var.default_value.to 16 }
  else p1

/-- `Vec::resize(n, v)`: truncate or pad with `v` to length `n`. -/
def list_resize (l : List (Nat × Nat × Nat)) (n : Nat) (v : Nat × Nat × Nat) :
    List (Nat × Nat × Nat) :=
  if n ≤ l.length then l.take n else l ++ List.replicate (n - l.length) v

/-- `PdoObject::update_map_params` (src/pdo.rs).  Sub-index 0 stores the
mapping count `t` (a `u8`) and resizes `mappings` to `t + 1` entries — the
`u8` sum `t + 1` panics when `t = 255`.  Sub-indices `1..=num_of_map_objs`
decode a 32-bit word into `(index, sub-index, bit-length)` and store it at
that position; the store `mappings[sub_index] = ...` panics when the
position is outside the current list. -/
def PdoObject.update_map_params (p : PdoObject) (var : Variable) : Option PdoObject :=
  if var.sub_index = 0 then
    let t := var.default_value.to 8
    if 256 ≤ t + 1 then none
    else
      some { p with
        num_of_map_objs := t
        mappings := list_resize p.mappings (t + 1) (0, 0, 0) }
  else if var.sub_index ≤ p.num_of_map_objs then
    let t := var.default_value.to 32
    if var.sub_index < p.mappings.length then
      some { p with
        mappings := p.mappings.set var.sub_index (t >>> 16, (t >>> 8) &&& 0xFF, t &&& 0xFF) }
    else none
  else
    some p

/-- `PdoObjects` (src/pdo.rs): 4 receive slots and 4 transmit slots (the
source arrays `[PdoObject; 4]` are length-4 lists here; the
`cob_to_index` hash map is built empty and never touched by the studied
code, so it is omitted). -/
structure PdoObjects where
  rpdos : List PdoObject
  tpdos : List PdoObject
deriving DecidableEq

/-- The `default_rpdo` literal of `PdoObjects::new` (src/pdo.rs). -/
def default_rpdo : PdoObject :=
  { pdo_type := PdoType.RPDO
    is_pdo_valid := false
    _not_used_rtr_allowed := false
    _not_used_is_29bit_can_id := false
    largest_sub_index := 5
    cob_id := 0x202
    transmission_type := 0x01
    inhibit_time := 0
    event_timer := 0
    num_of_map_objs := 0
    mappings := [] }

/-- The `default_tpdo` literal of `PdoObjects::new` (src/pdo.rs). -/
def default_tpdo : PdoObject :=
  { pdo_type := PdoType.TPDO
    is_pdo_valid := false
    _not_used_rtr_allowed := false
    _not_used_is_29bit_can_id := false
    largest_sub_index := 5
    cob_id := 0x180
    transmission_type := 0x01
    inhibit_time := 0
    event_timer := 0
    num_of_map_objs := 0
    mappings := [] }

/-- `PdoObjects::update` (src/pdo.rs): route a changed `Variable` to the
slot selected by the low nibble of its index; the high byte picks
communication vs. mapping parameters and RPDO vs. TPDO.  The source indexes
the fixed 4-element arrays without a bounds check, so a nibble above 3 is
an out-of-bounds panic (`none`). -/
def PdoObjects.update (p : PdoObjects) (var : Variable) : Option PdoObjects :=
  let t := var.index >>> 8
  let x := var.index &&& 0xF
  if t = 0x14 then
    match p.rpdos[x]? with
    | none => none
    | some pdo => some { p with rpdos := p.rpdos.set x (pdo.update_comm_params var) }
  else if t = 0x16 then
    match p.rpdos[x]? with
    | none => none
    | some pdo => (pdo.update_map_params var).map fun q => { p with rpdos := p.rpdos.set x q }
  else if t = 0x18 then
    match p.tpdos[x]? with
    | none => none
    | some pdo => some { p with tpdos := p.tpdos.set x (pdo.update_comm_params var) }
  else if t = 0x1A then
    match p.tpdos[x]? with
    | none => none
    | some pdo => (pdo.update_map_params var).map fun q => { p with tpdos := p.tpdos.set x q }
  else
    some p

/-- The inner loop of `PdoObjects::new`: feed sub-indices `1..=len` of
dictionary object `idx` through `update`, skipping absent entries. -/
def scan_sub_entries (od : ObjectDirectory) (idx len : Nat) (p : PdoObjects) :
    Option PdoObjects :=
  (List.range len).foldlM
    (fun acc k =>
      match od.get_variable idx (k + 1) with
      | some v => acc.update v
      | none => some acc)
    p

/-- The dictionary objects scanned by `PdoObjects::new`:
`(0x1400..0x1C00).step_by(0x200)` crossed with the four slots each. -/
def pdo_scan_indices : List Nat :=
  ([0x1400, 0x1600, 0x1800, 0x1A00].map fun i => (List.range 4).map fun j => i + j).flatten

/-- `PdoObjects::new` (src/pdo.rs): start from four default RPDO and four
default TPDO slots, then scan the communication- and mapping-parameter
ranges of the dictionary, feeding every present `Variable` through
`update` (sub-index 0 first, then sub-indices up to the count it holds). -/
def PdoObjects.new (od : ObjectDirectory) : Option PdoObjects :=
  let init : PdoObjects :=
    { rpdos := List.replicate 4 default_rpdo
      tpdos := List.replicate 4 default_tpdo }
  pdo_scan_indices.foldlM
    (fun res idx =>
      match od.get_variable idx 0 with
      | some var =>
        match res.update var with
        | none => none
        | some res1 => scan_sub_entries od idx (var.default_value.to 8) res1
      | none => some res)
    init

/- ## PDO frame generation and transmission (src/pdo.rs) -/

/-- A CAN frame: a standard 11-bit identifier and up to 8 data bytes. -/
structure CanFrame where
  id : Nat
  data : List Nat
deriving DecidableEq

/-- The collection loop of `gen_pdo_frame`: for each position, read the
mapping triple (`mappings[i]`, a panic when out of bounds) and the mapped
dictionary variable, failing with `GeneralError` when the entry is absent. -/
def collect_mapped (od : ObjectDirectory) (mappings : List (Nat × Nat × Nat)) :
    List Nat → Option (Except CanAbortCode (List (Nat × Nat)))
  | [] => some (Except.ok [])
  | i :: rest =>
    match mappings[i]? with
    | none => none
    | some (idx, sub_idx, bits) =>
      match od.get_variable idx sub_idx with
      | none => some (Except.error CanAbortCode.GeneralError)
      | some v =>
        (collect_mapped od mappings rest).map
          (Except.map fun t => (vec_to_u64 v.default_value.data, bits) :: t)

/-- `gen_pdo_frame` (src/pdo.rs): read the variables of mappings
`1..=num_of_map_objs`, pack them and build the CAN frame.  Panic sources
(`none`): the `u8` bound `num_of_map_objs + 1` overflowing, a mapping index
outside the list, a shift overflow inside `pack_data`,
`StandardId::new(cob_id).unwrap()` for a COB-ID above 0x7FF, and
`Frame::new(..).unwrap()` for a payload above 8 bytes. -/
def gen_pdo_frame (od : ObjectDirectory) (cob_id num_of_map_objs : Nat)
    (mappings : List (Nat × Nat × Nat)) : Option (Except CanAbortCode CanFrame) :=
  if 256 ≤ num_of_map_objs + 1 then none
  else
    match collect_mapped od mappings ((List.range num_of_map_objs).map (· + 1)) with
    | none => none
    | some (Except.error e) => some (Except.error e)
    | some (Except.ok t) =>
      match pack_data t with
      | none => none
      | some packet =>
        if 0x7FF < cob_id then none
        else if 8 < packet.length then none
        else some (Except.ok { id := cob_id, data := packet })

/-- One iteration of the slot loop of `transmit_pdo_messages`: an invalid
slot and a slot the trigger policy rejects transmit nothing; otherwise the
generated frame is handed to the transport (a transport error is only
logged, so the attempted frame is still recorded), and a generation error
is logged and skipped. -/
def transmit_slot (od : ObjectDirectory) (is_sync : Bool) (event : NodeEvent)
    (count : Nat) (pdo : PdoObject) : Option (List CanFrame) :=
  if !pdo.is_pdo_valid then some []
  else if !should_trigger_pdo is_sync event pdo.transmission_type pdo.event_timer count then
    some []
  else
    match gen_pdo_frame od pdo.cob_id pdo.num_of_map_objs pdo.mappings with
    | none => none
    | some (Except.error _) => some []
    | some (Except.ok f) => some [f]

/- ## Node state machine (src/node.rs) -/

/-- `Node` (src/node.rs), restricted to the fields the studied functions
touch.  The SDO session scratch fields and the CAN transport handle are
opaque to the NMT/SYNC/PDO paths and omitted; frames handed to the
transport are returned by each operation instead. -/
structure Node where
  node_id : Nat
  object_directory : ObjectDirectory
  pdo_objects : PdoObjects
  sync_count : Nat
  event_count : Nat
  state : NodeState

/-- `transmit_pdo_messages` (src/pdo.rs): evaluate the four transmit slots
in index order, returning the frames handed to the transport. -/
def transmit_pdo_messages (n : Node) (is_sync : Bool) (event : NodeEvent)
    (count : Nat) : Option (List CanFrame) :=
  (n.pdo_objects.tpdos.mapM (transmit_slot n.object_directory is_sync event count)).map
    List.flatten

/-- `trigger_event` (src/node.rs): zero both counters, then run one
asynchronous PDO pass with the (now zero) event counter. -/
def trigger_event (n : Node) (event : NodeEvent) : Option (Node × List CanFrame) :=
  let n1 := { n with event_count := 0, sync_count := 0 }
  (transmit_pdo_messages n1 false event n1.event_count).map fun fs => (n1, fs)

/-- `process_nmt_frame` (src/node.rs).  Result: the node after the frame,
the PDO frames handed to the transport, and the reply frame (always `None`
for NMT).  `none` models a panic: command specifiers 0x81/0x82 reach the
`todo!()` reset bodies, and command 0x01 runs a PDO pass that can panic. -/
def process_nmt_frame (n : Node) (frame : CanFrame) :
    Option (Node × List CanFrame × Option CanFrame) :=
  match frame.data with
  | [cs, nid] =>
    if nid ≠ n.node_id % 256 then some (n, [], none)
    else if cs = 1 then
      (trigger_event { n with state := NodeState.Operational } NodeEvent.NodeStart).map
        fun r => (r.1, r.2, none)
    else if cs = 2 then
      if n.state ≠ NodeState.Init then some ({ n with state := NodeState.Stopped }, [], none)
      else some (n, [], none)
    else if cs = 0x80 then some ({ n with state := NodeState.PreOperational }, [], none)
    else if cs = 0x81 then none
    else if cs = 0x82 then none
    else some (n, [], none)
  | _ => some (n, [], none)

/-- `process_sync_frame` (src/node.rs): in `Operational`, increment the
SYNC counter (a `u32`, so the increment panics at `2^32 - 1`) and run a
synchronous PDO pass with the new value; otherwise do nothing.  No reply. -/
def process_sync_frame (n : Node) : Option (Node × List CanFrame × Option CanFrame) :=
  if n.state = NodeState.Operational then
    if 2 ^ 32 ≤ n.sync_count + 1 then none
    else
      (transmit_pdo_messages { n with sync_count := n.sync_count + 1 } true
          NodeEvent.Unused (n.sync_count + 1)).map
        fun fs => ({ n with sync_count := n.sync_count + 1 }, fs, none)
  else some (n, [], none)

/-- `event_timer_callback` (src/node.rs): in `Operational`, increment the
event counter (a `u32`) and run an asynchronous `RegularTimerEvent` pass
with the new value; otherwise do nothing. -/
def event_timer_callback (n : Node) : Option (Node × List CanFrame) :=
  if n.state = NodeState.Operational then
    if 2 ^ 32 ≤ n.event_count + 1 then none
    else
      (transmit_pdo_messages { n with event_count := n.event_count + 1 } false
          NodeEvent.RegularTimerEvent (n.event_count + 1)).map
        fun fs => ({ n with event_count := n.event_count + 1 }, fs)
  else some (n, [])

/- ## Spec-side helper notions used by the theorems below -/

/-- Total declared bit width of a field list. -/
def sum_bits (l : List (Nat × Nat)) : Nat :=
  (l.map Prod.snd).sum

/-- The integer obtained by concatenating the fields most-significant-first,
each taken at its declared width. -/
def encode_fields : List (Nat × Nat) → Nat
  | [] => 0
  | (v, _) :: t => v * 2 ^ sum_bits t + encode_fields t

/- ## Claim theorems -/

/-- Claim C1: the trigger-policy table.  A synchronous-cause call returns
true exactly for transmission types `1..=240` dividing the counter; an
asynchronous `RegularTimerEvent` call returns true exactly for transmission
types 0xFE/0xFF with a nonzero event-timer period dividing the counter; an
asynchronous `NodeStart` call always returns true. -/
theorem trigger_policy_table (tt et c : Nat) (ev : NodeEvent) :
    (should_trigger_pdo true ev tt et c = true ↔ 1 ≤ tt ∧ tt ≤ 240 ∧ c % tt = 0) ∧
    (should_trigger_pdo false NodeEvent.RegularTimerEvent tt et c = true ↔
      (tt = 0xFE ∨ tt = 0xFF) ∧ 0 < et ∧ c % et = 0) ∧
    should_trigger_pdo false NodeEvent.NodeStart tt et c = true := by
  refine ⟨?_, ?_, rfl⟩
  · simp only [should_trigger_pdo, if_true]
    split_ifs with h
    · simp only [Bool.false_eq_true, false_iff]
      rintro ⟨h1, h2, h3⟩
      rcases h with h | h | h <;> omega
    · push_neg at h
      simp only [true_iff]
      exact ⟨by omega, by omega, h.2.2⟩
  · show (if tt ≠ 0xFE ∧ tt ≠ 0xFF then false
        else if et = 0 ∨ c % et ≠ 0 then false else true) = true ↔
      (tt = 0xFE ∨ tt = 0xFF) ∧ 0 < et ∧ c % et = 0
    split_ifs with h1 h2
    · simp only [Bool.false_eq_true, false_iff]
      rintro ⟨hx, _, _⟩
      rcases hx with hx | hx
      · exact h1.1 hx
      · exact h1.2 hx
    · simp only [Bool.false_eq_true, false_iff]
      rintro ⟨_, h3, h4⟩
      rcases h2 with h2 | h2
      · omega
      · exact h2 h4
    · push_neg at h1 h2
      simp only [true_iff]
      refine ⟨?_, Nat.pos_of_ne_zero h2.1, h2.2⟩
      by_cases hfe : tt = 0xFE
      · exact Or.inl hfe
      · exact Or.inr (h1 hfe)

/-- Claim C8: applying the same communication-parameter update twice yields
the same `PdoObject` state as applying it once. -/
theorem update_comm_params_idempotent (p : PdoObject) (var : Variable) :
    (p.update_comm_params var).update_comm_params var = p.update_comm_params var := by
  unfold PdoObject.update_comm_params
  split_ifs <;> rfl

/- ## Codec correctness lemmas -/

theorem sum_bits_nil : sum_bits [] = 0 := rfl

theorem sum_bits_cons (v b : Nat) (t : List (Nat × Nat)) :
    sum_bits ((v, b) :: t) = b + sum_bits t := by
  simp [sum_bits]

theorem lor_eq_add_of_lt (a v b : Nat) (h : v < 2 ^ b) :
    (a * 2 ^ b) ||| v = a * 2 ^ b + v := by
  rw [mul_comm]
  exact (Nat.mul_add_lt_is_or h a).symm

theorem encode_fields_lt (l : List (Nat × Nat)) (hv : ∀ p ∈ l, p.1 < 2 ^ p.2) :
    encode_fields l < 2 ^ sum_bits l := by
  induction l with
  | nil => simp [encode_fields, sum_bits_nil]
  | cons hd t ih =>
    obtain ⟨v, b⟩ := hd
    have hvb : v < 2 ^ b := hv (v, b) (List.mem_cons_self _ _)
    have ht := ih fun p hp => hv p (List.mem_cons_of_mem _ hp)
    rw [sum_bits_cons]
    show v * 2 ^ sum_bits t + encode_fields t < 2 ^ (b + sum_bits t)
    calc v * 2 ^ sum_bits t + encode_fields t
        < v * 2 ^ sum_bits t + 2 ^ sum_bits t := Nat.add_lt_add_left ht _
      _ = (v + 1) * 2 ^ sum_bits t := by ring
      _ ≤ 2 ^ b * 2 ^ sum_bits t := Nat.mul_le_mul_right _ (by omega)
      _ = 2 ^ (b + sum_bits t) := (pow_add 2 b (sum_bits t)).symm

theorem pack_loop_eq (l : List (Nat × Nat)) (merged total : Nat)
    (h : ∀ p ∈ l, p.1 < 2 ^ p.2 ∧ p.2 ≤ 63)
    (hm : merged < 2 ^ total) (htot : total + sum_bits l ≤ 64) :
    pack_loop l merged total =
      some (merged * 2 ^ sum_bits l + encode_fields l, total + sum_bits l) := by
  induction l generalizing merged total with
  | nil => simp [pack_loop, sum_bits_nil, encode_fields]
  | cons hd t ih =>
    obtain ⟨v, b⟩ := hd
    have hvb : v < 2 ^ b ∧ b ≤ 63 := h (v, b) (List.mem_cons_self _ _)
    obtain ⟨hv, hb⟩ := hvb
    have ht := fun p hp => h p (List.mem_cons_of_mem _ hp)
    rw [sum_bits_cons] at htot ⊢
    have hb64 : total + b ≤ 64 := by omega
    have hpow : (2 : Nat) ^ (total + b) ≤ 2 ^ 64 := Nat.pow_le_pow_right (by norm_num) hb64
    have hshift : merged <<< b = merged * 2 ^ b := Nat.shiftLeft_eq merged b
    have hmlt : merged * 2 ^ b < 2 ^ (total + b) := by
      calc merged * 2 ^ b < 2 ^ total * 2 ^ b :=
            (Nat.mul_lt_mul_right (Nat.pos_pow_of_pos b (by norm_num))).mpr hm
        _ = 2 ^ (total + b) := (pow_add 2 total b).symm
    have hmod : (merged <<< b) % 2 ^ 64 = merged * 2 ^ b := by
      rw [hshift]
      exact Nat.mod_eq_of_lt (lt_of_lt_of_le hmlt hpow)
    have hmask : v &&& (2 ^ b - 1) = v := by
      rw [Nat.and_pow_two_sub_one_eq_mod]
      exact Nat.mod_eq_of_lt hv
    have hm1 : ((merged <<< b) % 2 ^ 64) ||| (v &&& (2 ^ b - 1)) = merged * 2 ^ b + v := by
      rw [hmod, hmask]
      exact lor_eq_add_of_lt merged v b hv
    have hm1lt : merged * 2 ^ b + v < 2 ^ (total + b) := by
      calc merged * 2 ^ b + v < merged * 2 ^ b + 2 ^ b := Nat.add_lt_add_left hv _
        _ = (merged + 1) * 2 ^ b := by ring
        _ ≤ 2 ^ total * 2 ^ b := Nat.mul_le_mul_right _ (by omega)
        _ = 2 ^ (total + b) := (pow_add 2 total b).symm
    show (if 256 ≤ total + b then none
      else if 64 ≤ b then none
      else pack_loop t (((merged <<< b) % 2 ^ 64) ||| (v &&& (2 ^ b - 1))) (total + b)) = _
    rw [if_neg (by omega), if_neg (by omega), hm1,
      ih (merged * 2 ^ b + v) (total + b) ht hm1lt (by omega)]
    congr 2
    · show (merged * 2 ^ b + v) * 2 ^ sum_bits t + encode_fields t =
        merged * 2 ^ (b + sum_bits t) + (v * 2 ^ sum_bits t + encode_fields t)
      rw [pow_add]
      ring
    · omega

theorem length_be_serialize (n m : Nat) : (be_serialize n m).length = n := by
  induction n generalizing m with
  | zero => rfl
  | succ k ih => simp [be_serialize, ih]

theorem vec_to_u64_be_serialize (n m : Nat) (hn : 8 * n ≤ 64) :
    vec_to_u64 (be_serialize n m) = m % 2 ^ (8 * n) := by
  induction n generalizing m with
  | zero => simp [be_serialize, vec_to_u64, Nat.mod_one]
  | succ k ih =>
    have hk : 8 * k ≤ 64 := by omega
    have hstep : vec_to_u64 (be_serialize (k + 1) m) =
        ((vec_to_u64 (be_serialize k (m >>> 8)) <<< 8) % 2 ^ 64) ||| (m &&& 0xFF) := by
      show List.foldl _ 0 (be_serialize k (m >>> 8) ++ [m &&& 0xFF]) = _
      rw [List.foldl_append]
      rfl
    rw [hstep, ih (m >>> 8) hk]
    have hmask : m &&& 0xFF = m % 2 ^ 8 := Nat.and_pow_two_sub_one_eq_mod m 8
    have ha : (m >>> 8) % 2 ^ (8 * k) < 2 ^ (8 * k) :=
      Nat.mod_lt _ (Nat.pos_pow_of_pos _ (by norm_num))
    have hshift : ((m >>> 8) % 2 ^ (8 * k)) <<< 8 = ((m >>> 8) % 2 ^ (8 * k)) * 2 ^ 8 :=
      Nat.shiftLeft_eq _ 8
    have hlt : ((m >>> 8) % 2 ^ (8 * k)) * 2 ^ 8 < 2 ^ (8 * k + 8) := by
      calc ((m >>> 8) % 2 ^ (8 * k)) * 2 ^ 8 < 2 ^ (8 * k) * 2 ^ 8 :=
            (Nat.mul_lt_mul_right (by norm_num)).mpr ha
        _ = 2 ^ (8 * k + 8) := (pow_add 2 (8 * k) 8).symm
    have hpow : (2 : Nat) ^ (8 * k + 8) ≤ 2 ^ 64 := Nat.pow_le_pow_right (by norm_num) (by omega)
    have hmod : (((m >>> 8) % 2 ^ (8 * k)) <<< 8) % 2 ^ 64 =
        ((m >>> 8) % 2 ^ (8 * k)) * 2 ^ 8 := by
      rw [hshift]
      exact Nat.mod_eq_of_lt (lt_of_lt_of_le hlt hpow)
    rw [hmod, hmask, lor_eq_add_of_lt _ _ 8 (Nat.mod_lt _ (by norm_num))]
    have hsplit : m % 2 ^ (8 * (k + 1)) = m % 2 ^ 8 + 2 ^ 8 * (m / 2 ^ 8 % 2 ^ (8 * k)) := by
      have : (2 : Nat) ^ (8 * (k + 1)) = 2 ^ 8 * 2 ^ (8 * k) := by
        rw [← pow_add]
        congr 1
        omega
      rw [this, Nat.mod_mul]
    rw [hsplit, Nat.shiftRight_eq_div_pow]
    ring

theorem unpack_loop_eq (l : List (Nat × Nat)) (hi : Nat)
    (h : ∀ p ∈ l, p.1 < 2 ^ p.2 ∧ p.2 ≤ 63) :
    unpack_loop (l.map Prod.snd) (encode_fields l + hi * 2 ^ sum_bits l) = some (l, hi) := by
  induction l generalizing hi with
  | nil => simp [unpack_loop, encode_fields, sum_bits_nil]
  | cons hd t ih =>
    obtain ⟨v, b⟩ := hd
    have hvb : v < 2 ^ b ∧ b ≤ 63 := h (v, b) (List.mem_cons_self _ _)
    obtain ⟨hv, hb⟩ := hvb
    have ht := fun p hp => h p (List.mem_cons_of_mem _ hp)
    have hD : encode_fields ((v, b) :: t) + hi * 2 ^ sum_bits ((v, b) :: t) =
        encode_fields t + (v + hi * 2 ^ b) * 2 ^ sum_bits t := by
      show v * 2 ^ sum_bits t + encode_fields t + hi * 2 ^ sum_bits ((v, b) :: t) = _
      rw [sum_bits_cons, pow_add]
      ring
    show unpack_loop (b :: t.map Prod.snd) _ = _
    rw [hD]
    show (match unpack_loop (t.map Prod.snd) (encode_fields t + (v + hi * 2 ^ b) * 2 ^ sum_bits t) with
      | none => none
      | some (tail, d) =>
        if 64 ≤ b then none
        else some ((d &&& (2 ^ b - 1), b) :: tail, d >>> b)) = _
    rw [ih (v + hi * 2 ^ b) ht]
    show (if 64 ≤ b then none
      else some (((v + hi * 2 ^ b) &&& (2 ^ b - 1), b) :: t, (v + hi * 2 ^ b) >>> b)) = _
    rw [if_neg (by omega)]
    have hval : (v + hi * 2 ^ b) &&& (2 ^ b - 1) = v := by
      rw [Nat.and_pow_two_sub_one_eq_mod, Nat.add_mul_mod_self_right]
      exact Nat.mod_eq_of_lt hv
    have hrest : (v + hi * 2 ^ b) >>> b = hi := by
      rw [Nat.shiftRight_eq_div_pow,
        Nat.add_mul_div_right _ _ (Nat.pos_pow_of_pos b (by norm_num)),
        Nat.div_eq_of_lt hv, Nat.zero_add]
    rw [hval, hrest]

/-- Claim C2 (counterexample): the round-trip claim as stated fails for the
single field `(0, 64)` — the value is below `2^64` and the total is 64 bits,
but `1u64 << 64` panics inside `pack_data`, so no round-trip value exists. -/
theorem codec_round_trip_claim_false :
    (0 : Nat) < 2 ^ 64 ∧ sum_bits [((0 : Nat), (64 : Nat))] ≤ 64 ∧
      ((pack_data [((0 : Nat), (64 : Nat))]).bind
        fun bytes => unpack_data bytes [64]) ≠ some [((0 : Nat), (64 : Nat))] := by
  refine ⟨by norm_num, by decide, ?_⟩
  decide

/-- Claim C2 (amended: every bit-length must also be at most 63, otherwise
the `1u64 << bits` masks panic): packing a sequence of `(value, bit-length)`
pairs whose values fit their widths, whose widths are at most 63, and whose
widths sum to at most 64, then unpacking with the same widths, returns
exactly the original sequence. -/
theorem codec_round_trip (l : List (Nat × Nat))
    (h : ∀ p ∈ l, p.1 < 2 ^ p.2 ∧ p.2 ≤ 63) (hs : sum_bits l ≤ 64) :
    ∃ bytes, pack_data l = some bytes ∧ unpack_data bytes (l.map Prod.snd) = some l := by
  have hloop := pack_loop_eq l 0 0 h (by norm_num) (by omega)
  have hE : encode_fields l < 2 ^ sum_bits l :=
    encode_fields_lt l fun p hp => (h p hp).1
  refine ⟨be_serialize (sum_bits l / 8 + if sum_bits l % 8 > 0 then 1 else 0)
    (encode_fields l), ?_, ?_⟩
  · rw [pack_data, hloop]
    simp
  · have hTB64 : 8 * (sum_bits l / 8 + if sum_bits l % 8 > 0 then 1 else 0) ≤ 64 := by
      split_ifs <;> omega
    have hSTB : sum_bits l ≤ 8 * (sum_bits l / 8 + if sum_bits l % 8 > 0 then 1 else 0) := by
      split_ifs <;> omega
    rw [unpack_data, vec_to_u64_be_serialize _ _ hTB64,
      Nat.mod_eq_of_lt (lt_of_lt_of_le hE (Nat.pow_le_pow_right (by norm_num) hSTB))]
    have h0 := unpack_loop_eq l 0 h
    rw [zero_mul, add_zero] at h0
    rw [h0]
    rfl

/-- Claim C2 (witness): a concrete round trip through the amended theorem. -/
theorem codec_round_trip_witness :
    (∀ p ∈ [((5 : Nat), (3 : Nat)), (1, 1)], p.1 < 2 ^ p.2 ∧ p.2 ≤ 63) ∧
      sum_bits [((5 : Nat), (3 : Nat)), (1, 1)] ≤ 64 ∧
      ∃ bytes, pack_data [((5 : Nat), (3 : Nat)), (1, 1)] = some bytes ∧
        unpack_data bytes ([((5 : Nat), (3 : Nat)), (1, 1)].map Prod.snd) =
          some [((5 : Nat), (3 : Nat)), (1, 1)] :=
  ⟨by decide, by decide, codec_round_trip _ (by decide) (by decide)⟩

/-- Claim C7 (counterexample): the example sequence needs 12 + 20 + 9 = 41
bits, so `pack_data` produces 6 bytes, not the 5 the claim states. -/
theorem pack_example_claim_false :
    (pack_data [((0xABC : Nat), (12 : Nat)), (0x123456, 20), (0x102, 9)]).map List.length ≠
      some 5 := by
  decide

/-- Claim C7 (amended: the buffer has 6 bytes, not 5): packing the example
sequence gives a 6-byte buffer which unpacks with widths [12, 20, 9] to the
same triples with each value masked to its declared width (only 0x123456
exceeds its 20-bit width and becomes 0x23456). -/
theorem pack_example_round_trip :
    (pack_data [((0xABC : Nat), (12 : Nat)), (0x123456, 20), (0x102, 9)]).map List.length =
        some 6 ∧
      ((pack_data [((0xABC : Nat), (12 : Nat)), (0x123456, 20), (0x102, 9)]).bind
          fun b => unpack_data b [12, 20, 9]) =
        some [(0xABC, 12), (0x23456, 20), (0x102, 9)] := by
  decide

/-- Helper for claim C10: the packing loop cannot panic while every declared
width is at most 63 and the running `u8` bit total stays within 255. -/
theorem pack_loop_total (l : List (Nat × Nat)) (merged total : Nat)
    (hb : ∀ p ∈ l, p.2 ≤ 63) (htot : total + sum_bits l ≤ 255) :
    (pack_loop l merged total).isSome = true := by
  induction l generalizing merged total with
  | nil => rfl
  | cons hd t ih =>
    obtain ⟨v, b⟩ := hd
    have hbb : b ≤ 63 := hb (v, b) (List.mem_cons_self _ _)
    have ht := fun p hp => hb p (List.mem_cons_of_mem _ hp)
    rw [sum_bits_cons] at htot
    show (if 256 ≤ total + b then none
      else if 64 ≤ b then none
      else pack_loop t (((merged <<< b) % 2 ^ 64) ||| (v &&& (2 ^ b - 1))) (total + b)).isSome = true
    rw [if_neg (by omega), if_neg (by omega)]
    exact ih _ (total + b) ht (by omega)

/-- Helper for claim C10: the unpacking loop cannot panic while every
declared width is at most 63. -/
theorem unpack_loop_total (bits : List Nat) (data : Nat) (hb : ∀ b ∈ bits, b ≤ 63) :
    (unpack_loop bits data).isSome = true := by
  induction bits generalizing data with
  | nil => rfl
  | cons b t ih =>
    have hbb : b ≤ 63 := hb b (List.mem_cons_self _ _)
    have ht := fun x hx => hb x (List.mem_cons_of_mem _ hx)
    show (match unpack_loop t data with
      | none => none
      | some (tail, d) =>
        if 64 ≤ b then none
        else some ((d &&& (2 ^ b - 1), b) :: tail, d >>> b)).isSome = true
    rcases ho : unpack_loop t data with _ | ⟨tail, d⟩
    · have hcontra := ih data ht
      rw [ho] at hcontra
      simp at hcontra
    · show (if 64 ≤ b then none
        else some ((d &&& (2 ^ b - 1), b) :: tail, d >>> b)).isSome = true
      rw [if_neg (by omega)]
      rfl

/-- Claim C10 (counterexample): the claim as stated is false — a list whose
widths are all at most 63 can still make `pack_data` panic, because the `u8`
accumulator `total_bits += bits` overflows once the widths sum past 255. -/
theorem codec_total_claim_false :
    (∀ p ∈ List.replicate 5 ((0 : Nat), (60 : Nat)), p.2 ≤ 63) ∧
      pack_data (List.replicate 5 ((0 : Nat), (60 : Nat))) = none := by
  refine ⟨?_, by decide⟩
  decide

/-- Claim C10 (amended: `pack_data` additionally needs the widths to sum to
at most 255, the `u8` bit-total accumulator): with every width at most 63,
`pack_data` is total whenever the widths sum to at most 255 and
`unpack_data` is always total; a single declared width of 64 makes either
function panic on its shift. -/
theorem codec_shift_safety :
    (∀ l : List (Nat × Nat), (∀ p ∈ l, p.2 ≤ 63) → sum_bits l ≤ 255 →
      (pack_data l).isSome = true) ∧
    (∀ (bytes bits : List Nat), (∀ b ∈ bits, b ≤ 63) →
      (unpack_data bytes bits).isSome = true) ∧
    pack_data [((0 : Nat), (64 : Nat))] = none ∧
    unpack_data (List.replicate 8 0) [64] = none := by
  refine ⟨fun l hb hs => ?_, fun bytes bits hb => ?_, by decide, by decide⟩
  · have h1 := pack_loop_total l 0 0 hb (by omega)
    rcases hp : pack_loop l 0 0 with _ | mt
    · rw [hp] at h1
      simp at h1
    · rw [pack_data, hp]
      rfl
  · have h1 := unpack_loop_total bits (vec_to_u64 bytes) hb
    rcases hp : unpack_loop bits (vec_to_u64 bytes) with _ | r
    · rw [hp] at h1
      simp at h1
    · rw [unpack_data, hp]
      rfl

/-- Claim C10 (witness): the amended theorem applied at concrete inputs. -/
theorem codec_shift_safety_witness :
    (∀ p ∈ [((1 : Nat), (8 : Nat)), (2, 16)], p.2 ≤ 63) ∧
      sum_bits [((1 : Nat), (8 : Nat)), (2, 16)] ≤ 255 ∧
      (pack_data [((1 : Nat), (8 : Nat)), (2, 16)]).isSome = true ∧
      (∀ b ∈ [(7 : Nat), 9], b ≤ 63) ∧
      (unpack_data [1, 2] [7, 9]).isSome = true :=
  ⟨by decide, by decide, codec_shift_safety.1 _ (by decide) (by decide), by decide,
    codec_shift_safety.2.1 [1, 2] _ (by decide)⟩

/- ## Node state machine claims -/

/-- `trigger_event` written without the intermediate `let`: zero the
counters, run the pass with counter 0, pair the results. -/
theorem trigger_event_eq (n : Node) (ev : NodeEvent) :
    trigger_event n ev =
      (transmit_pdo_messages { n with event_count := 0, sync_count := 0 } false ev 0).map
        fun fs => ({ n with event_count := 0, sync_count := 0 }, fs) := rfl

/-- Claim C3: a SYNC frame and an event-timer callback are no-ops (node
unchanged, zero transmitted frames, no reply) in `Init`, `PreOperational`
and `Stopped`; only in `Operational` do they increment their counter and
run the corresponding PDO transmit pass. -/
theorem pdo_pass_state_gating (n : Node) :
    (n.state ≠ NodeState.Operational →
      process_sync_frame n = some (n, [], none) ∧ event_timer_callback n = some (n, [])) ∧
    (n.state = NodeState.Operational → n.sync_count + 1 < 2 ^ 32 →
      process_sync_frame n =
        (transmit_pdo_messages { n with sync_count := n.sync_count + 1 } true
            NodeEvent.Unused (n.sync_count + 1)).map
          fun fs => ({ n with sync_count := n.sync_count + 1 }, fs, none)) ∧
    (n.state = NodeState.Operational → n.event_count + 1 < 2 ^ 32 →
      event_timer_callback n =
        (transmit_pdo_messages { n with event_count := n.event_count + 1 } false
            NodeEvent.RegularTimerEvent (n.event_count + 1)).map
          fun fs => ({ n with event_count := n.event_count + 1 }, fs)) := by
  refine ⟨fun h => ⟨?_, ?_⟩, fun h hc => ?_, fun h hc => ?_⟩
  · rw [process_sync_frame, if_neg h]
  · rw [event_timer_callback, if_neg h]
  · rw [process_sync_frame, if_pos h, if_neg (by omega)]
  · rw [event_timer_callback, if_pos h, if_neg (by omega)]

/-- Claim C5: an NMT frame whose target-address byte differs from this
node's address leaves the node unchanged, transmits nothing and produces no
reply, whatever the command specifier. -/
theorem nmt_foreign_address (n : Node) (cid cs nid : Nat) (h : n.node_id < 256)
    (hne : nid ≠ n.node_id) :
    process_nmt_frame n { id := cid, data := [cs, nid] } = some (n, [], none) := by
  show (if nid ≠ n.node_id % 256 then some (n, [], none)
    else if cs = 1 then
      (trigger_event { n with state := NodeState.Operational } NodeEvent.NodeStart).map
        fun r => (r.1, r.2, none)
    else if cs = 2 then
      if n.state ≠ NodeState.Init then some ({ n with state := NodeState.Stopped }, [], none)
      else some (n, [], none)
    else if cs = 0x80 then some ({ n with state := NodeState.PreOperational }, [], none)
    else if cs = 0x81 then none
    else if cs = 0x82 then none
    else some (n, [], none)) = some (n, [], none)
  rw [if_pos (by rw [Nat.mod_eq_of_lt h]; exact hne)]

/-- Claim C4: from any state, NMT command 0x01 addressed to this node sets
the state to `Operational`, zeroes both counters, and runs one asynchronous
`NodeStart` pass with counter 0; that pass triggers regardless of
transmission type and event-timer period, so every valid TPDO slot reaches
the frame-generation-and-transmit step. -/
theorem nmt_start_command (n : Node) (cid : Nat) (h : n.node_id < 256) :
    (process_nmt_frame n { id := cid, data := [0x01, n.node_id] } =
      (transmit_pdo_messages
          { n with state := NodeState.Operational, sync_count := 0, event_count := 0 }
          false NodeEvent.NodeStart 0).map
        fun fs =>
          ({ n with state := NodeState.Operational, sync_count := 0, event_count := 0 },
            fs, none)) ∧
    (∀ tt et c, should_trigger_pdo false NodeEvent.NodeStart tt et c = true) ∧
    (∀ (od : ObjectDirectory) (pdo : PdoObject), pdo.is_pdo_valid = true →
      transmit_slot od false NodeEvent.NodeStart 0 pdo =
        match gen_pdo_frame od pdo.cob_id pdo.num_of_map_objs pdo.mappings with
        | none => none
        | some (Except.error _) => some []
        | some (Except.ok f) => some [f]) := by
  refine ⟨?_, fun tt et c => rfl, fun od pdo hval => ?_⟩
  · show (if n.node_id ≠ n.node_id % 256 then some (n, [], none)
      else ((transmit_pdo_messages
          { n with state := NodeState.Operational, sync_count := 0, event_count := 0 }
          false NodeEvent.NodeStart 0).map
        fun fs =>
          ({ n with state := NodeState.Operational, sync_count := 0, event_count := 0 },
            fs)).map fun r => (r.1, r.2, none)) = _
    rw [if_neg fun hne => hne (Nat.mod_eq_of_lt h).symm]
    cases transmit_pdo_messages
      { n with state := NodeState.Operational, sync_count := 0, event_count := 0 }
      false NodeEvent.NodeStart 0 <;> rfl
  · show (if !pdo.is_pdo_valid then some []
      else if !true then some []
      else match gen_pdo_frame od pdo.cob_id pdo.num_of_map_objs pdo.mappings with
        | none => none
        | some (Except.error _) => some []
        | some (Except.ok f) => some [f]) = _
    rw [hval]
    rfl

/- ## Mapping-table claims -/

theorem length_list_resize (l : List (Nat × Nat × Nat)) (n : Nat) (v : Nat × Nat × Nat) :
    (list_resize l n v).length = n := by
  rw [list_resize]
  split_ifs with h
  · rw [List.length_take]
    omega
  · rw [List.length_append, List.length_replicate]
    omega

/-- Claim C6 (counterexample): the freshly constructed default slots violate
the invariant — building the table over an empty dictionary leaves every
slot with an empty mappings list (`length 0`) while `num_of_map_objs = 0`,
and `0 ≠ 0 + 1`. -/
theorem mapping_length_invariant_claim_false :
    ((PdoObjects.new fun _ => none).map fun p =>
        (p.rpdos ++ p.tpdos).all fun o => o.mappings.length == o.num_of_map_objs + 1) =
        some false ∧
      ((PdoObjects.new fun _ => none).map fun p =>
        p.rpdos.map fun o => (o.mappings.length, o.num_of_map_objs)) =
        some [(0, 0), (0, 0), (0, 0), (0, 0)] := by
  refine ⟨?_, ?_⟩ <;> decide

/-- Claim C6 (amended: the fresh default slots have an empty mappings list
with a zero mapping count, so the invariant `mappings.len() =
num_of_map_objs + 1` does not hold at construction; it is established by
every successful sub-index-0 mapping update and preserved by every
mapping-parameter and communication-parameter update). -/
theorem mapping_length_invariant :
    (∀ (p : PdoObject) (var : Variable) (q : PdoObject), var.sub_index = 0 →
      p.update_map_params var = some q → q.mappings.length = q.num_of_map_objs + 1) ∧
    (∀ (p : PdoObject) (var : Variable) (q : PdoObject),
      p.mappings.length = p.num_of_map_objs + 1 →
      p.update_map_params var = some q → q.mappings.length = q.num_of_map_objs + 1) ∧
    (∀ (p : PdoObject) (var : Variable),
      (p.update_comm_params var).mappings = p.mappings ∧
      (p.update_comm_params var).num_of_map_objs = p.num_of_map_objs) := by
  have hsub0 : ∀ (p : PdoObject) (var : Variable) (q : PdoObject), var.sub_index = 0 →
      p.update_map_params var = some q → q.mappings.length = q.num_of_map_objs + 1 := by
    intro p var q h0 hup
    rw [PdoObject.update_map_params, if_pos h0] at hup
    by_cases hov : 256 ≤ var.default_value.to 8 + 1
    · rw [if_pos hov] at hup
      cases hup
    · rw [if_neg hov] at hup
      cases hup
      show (list_resize p.mappings (var.default_value.to 8 + 1) (0, 0, 0)).length =
        var.default_value.to 8 + 1
      exact length_list_resize _ _ _
  refine ⟨hsub0, ?_, ?_⟩
  · intro p var q hinv hup
    by_cases h0 : var.sub_index = 0
    · exact hsub0 p var q h0 hup
    · rw [PdoObject.update_map_params, if_neg h0] at hup
      by_cases hle : var.sub_index ≤ p.num_of_map_objs
      · rw [if_pos hle] at hup
        by_cases hlt : var.sub_index < p.mappings.length
        · rw [if_pos hlt] at hup
          cases hup
          show (p.mappings.set var.sub_index _).length = p.num_of_map_objs + 1
          rw [List.length_set]
          exact hinv
        · rw [if_neg hlt] at hup
          cases hup
      · rw [if_neg hle] at hup
        cases hup
        exact hinv
  · intro p var
    rw [PdoObject.update_comm_params]
    split_ifs <;> exact ⟨rfl, rfl⟩

/-- The default PDO table: four default RPDO slots and four default TPDO
slots, what `PdoObjects::new` builds over an empty dictionary. -/
def sample_pdo_objects : PdoObjects :=
  { rpdos := List.replicate 4 default_rpdo
    tpdos := List.replicate 4 default_tpdo }

def sample_map_count_var : Variable :=
  { index := 0x1600, sub_index := 0, default_value := { data := [2] } }

def sample_map_entry_var : Variable :=
  { index := 0x1600, sub_index := 1, default_value := { data := [0x12, 0x34, 0x01, 0x10] } }

def sample_pdo_after_count : PdoObject :=
  { default_rpdo with num_of_map_objs := 2, mappings := [(0, 0, 0), (0, 0, 0), (0, 0, 0)] }

def sample_pdo_after_entry : PdoObject :=
  { sample_pdo_after_count with mappings := [(0, 0, 0), (0x1234, 0x01, 0x10), (0, 0, 0)] }

/-- Claim C6 (witness): the amended theorem applied at concrete inputs. -/
theorem mapping_length_invariant_witness :
    sample_pdo_after_count.mappings.length = sample_pdo_after_count.num_of_map_objs + 1 ∧
      sample_pdo_after_entry.mappings.length = sample_pdo_after_entry.num_of_map_objs + 1 ∧
      (default_tpdo.update_comm_params sample_map_count_var).mappings =
        default_tpdo.mappings ∧
      (default_tpdo.update_comm_params sample_map_count_var).num_of_map_objs =
        default_tpdo.num_of_map_objs :=
  ⟨mapping_length_invariant.1 default_rpdo sample_map_count_var sample_pdo_after_count
      (by decide) (by decide),
    mapping_length_invariant.2.1 sample_pdo_after_count sample_map_entry_var
      sample_pdo_after_entry (by decide) (by decide),
    (mapping_length_invariant.2.2 default_tpdo sample_map_count_var).1,
    (mapping_length_invariant.2.2 default_tpdo sample_map_count_var).2⟩

/-- Claim C9: `PdoObjects::update` selects the slot as the low nibble of
the dictionary index and indexes the fixed 4-element arrays without a
bounds check.  For every `Variable` whose index high byte is 0x14, 0x16,
0x18 or 0x1A: a low nibble of 4 or more makes the array access panic
(result `none`), and a low nibble of at most 3 makes the access in-bounds
(the addressed slot exists). -/
theorem pdo_update_slot_bounds (p : PdoObjects) (var : Variable)
    (h4r : p.rpdos.length = 4) (h4t : p.tpdos.length = 4)
    (ht : var.index >>> 8 = 0x14 ∨ var.index >>> 8 = 0x16 ∨
      var.index >>> 8 = 0x18 ∨ var.index >>> 8 = 0x1A) :
    (4 ≤ var.index &&& 0xF → PdoObjects.update p var = none) ∧
    (var.index &&& 0xF ≤ 3 →
      (if var.index >>> 8 = 0x14 ∨ var.index >>> 8 = 0x16 then
          p.rpdos[var.index &&& 0xF]?
        else p.tpdos[var.index &&& 0xF]?).isSome = true) := by
  constructor
  · intro hx
    have hrnone : p.rpdos[var.index &&& 0xF]? = none :=
      List.getElem?_eq_none (by omega)
    have htnone : p.tpdos[var.index &&& 0xF]? = none :=
      List.getElem?_eq_none (by omega)
    rcases ht with h | h | h | h <;>
      · simp only [PdoObjects.update, h]
        norm_num
        simp [hrnone, htnone]
  · intro hx
    split_ifs with hdir
    · rw [List.getElem?_eq_getElem (by omega)]
      rfl
    · rw [List.getElem?_eq_getElem (by omega)]
      rfl

def sample_oob_var : Variable :=
  { index := 0x1404, sub_index := 1, default_value := { data := [] } }

def sample_inb_var : Variable :=
  { index := 0x1403, sub_index := 1, default_value := { data := [] } }

/-- Claim C9 (witness): a `Variable` with dictionary index 0x1404 (low
nibble 4) panics the update on the default table, while index 0x1403 (low
nibble 3) addresses an existing slot. -/
theorem pdo_update_slot_bounds_witness :
    PdoObjects.update sample_pdo_objects sample_oob_var = none ∧
      (if sample_inb_var.index >>> 8 = 0x14 ∨ sample_inb_var.index >>> 8 = 0x16 then
          sample_pdo_objects.rpdos[sample_inb_var.index &&& 0xF]?
        else sample_pdo_objects.tpdos[sample_inb_var.index &&& 0xF]?).isSome = true :=
  ⟨(pdo_update_slot_bounds sample_pdo_objects sample_oob_var (by decide) (by decide)
      (by decide)).1 (by decide),
    (pdo_update_slot_bounds sample_pdo_objects sample_inb_var (by decide) (by decide)
      (by decide)).2 (by decide)⟩

/-- A concrete node for the witnesses: address 2, empty dictionary, default
PDO table, both counters zero, state `Init`. -/
def sample_node : Node :=
  { node_id := 2
    object_directory := fun _ => none
    pdo_objects := sample_pdo_objects
    sync_count := 0
    event_count := 0
    state := NodeState.Init }

/-- The same node in the `Operational` state. -/
def sample_node_op : Node :=
  { sample_node with state := NodeState.Operational }

/-- Claim C3 (witness): the gating theorem applied at the concrete node in
`Init` and in `Operational`. -/
theorem pdo_pass_state_gating_witness :
    (process_sync_frame sample_node = some (sample_node, [], none) ∧
      event_timer_callback sample_node = some (sample_node, [])) ∧
    process_sync_frame sample_node_op =
      (transmit_pdo_messages { sample_node_op with sync_count := sample_node_op.sync_count + 1 }
          true NodeEvent.Unused (sample_node_op.sync_count + 1)).map
        (fun fs => ({ sample_node_op with sync_count := sample_node_op.sync_count + 1 },
          fs, none)) ∧
    event_timer_callback sample_node_op =
      (transmit_pdo_messages
          { sample_node_op with event_count := sample_node_op.event_count + 1 }
          false NodeEvent.RegularTimerEvent (sample_node_op.event_count + 1)).map
        fun fs => ({ sample_node_op with event_count := sample_node_op.event_count + 1 }, fs) :=
  ⟨(pdo_pass_state_gating sample_node).1 (by decide),
    (pdo_pass_state_gating sample_node_op).2.1 rfl (by decide),
    (pdo_pass_state_gating sample_node_op).2.2 rfl (by decide)⟩

/-- Claim C4 (witness): the NMT-start theorem applied at the concrete node. -/
theorem nmt_start_command_witness :
    (process_nmt_frame sample_node { id := 0, data := [0x01, sample_node.node_id] } =
      (transmit_pdo_messages
          { sample_node with
            state := NodeState.Operational, sync_count := 0, event_count := 0 }
          false NodeEvent.NodeStart 0).map
        fun fs =>
          ({ sample_node with
            state := NodeState.Operational, sync_count := 0, event_count := 0 },
            fs, none)) ∧
    (∀ tt et c, should_trigger_pdo false NodeEvent.NodeStart tt et c = true) ∧
    (∀ (od : ObjectDirectory) (pdo : PdoObject), pdo.is_pdo_valid = true →
      transmit_slot od false NodeEvent.NodeStart 0 pdo =
        match gen_pdo_frame od pdo.cob_id pdo.num_of_map_objs pdo.mappings with
        | none => none
        | some (Except.error _) => some []
        | some (Except.ok f) => some [f]) :=
  nmt_start_command sample_node 0 (by decide)

/-- Claim C5 (witness): an NMT frame addressed to node 9 is ignored by the
concrete node with address 2. -/
theorem nmt_foreign_address_witness :
    process_nmt_frame sample_node { id := 0, data := [0x02, 9] } =
      some (sample_node, [], none) :=
  nmt_foreign_address sample_node 0 0x02 9 (by decide) (by decide)
